import Mathlib

/-!
Shallow embedding of the event subsystem of nsridhar76/go-ordersvc.

Embedded directly from the Go sources:
  * `internal/messaging` : the event-type constants and the `OrderEvent`
    wire envelope (JSON tags, `omitempty` on `old_status`/`new_status`).
  * `internal/messaging/noop` : the no-op `Publisher` used when Kafka is
    not configured.

Components of the repository that are documented (ADR-0006, the spec) but
whose Go source is not available here — the `domain` package, the service
layer that wraps publish calls, the Kafka publisher, and the gRPC
streaming gateway — are modelled from the spec; each such definition says
so in its doc comment.
-/

namespace OrderSvc

/-- Modelled from the spec: the `domain.OrderStatus` enumeration of the
missing `internal/domain` package, with the status names the spec uses
(pending, confirmed, shipped, delivered, cancelled). -/
inductive OrderStatus
  | pending
  | confirmed
  | shipped
  | delivered
  | cancelled
  deriving DecidableEq, Repr

/-- String form of an order status, as it appears on the wire. -/
def OrderStatus.toString : OrderStatus → String
  | .pending => "pending"
  | .confirmed => "confirmed"
  | .shipped => "shipped"
  | .delivered => "delivered"
  | .cancelled => "cancelled"

/-- Modelled from the spec: the minimal entity data of `domain.Order`
needed to build an envelope — identifying strings, current status, a
numeric total snapshot and the optimistic-concurrency version. -/
structure Order where
  id : String
  customerId : String
  status : OrderStatus
  total : Rat
  version : Int
  deriving DecidableEq, Repr

/-- Event type constants of `internal/messaging` (Go constant
`EventOrderCreated`). -/
def EventOrderCreated : String := "order.created"

/-- Event type constant `EventOrderUpdated` of `internal/messaging`. -/
def EventOrderUpdated : String := "order.updated"

/-- Event type constant `EventOrderStatusChanged` of `internal/messaging`. -/
def EventOrderStatusChanged : String := "order.status_changed"

/-- The `OrderEvent` struct of `internal/messaging`: the Kafka message
envelope for order domain events.  Go's `float64` total is modelled as a
rational snapshot, `time.Time` as a numeric instant that serializes to a
timestamp string. -/
structure OrderEvent where
  eventType : String
  orderID : String
  customerID : String
  status : String
  oldStatus : String
  newStatus : String
  total : Rat
  version : Int
  occurredAt : Nat
  deriving DecidableEq, Repr

/-- A JSON value as it appears in the serialized envelope: Go string
fields marshal to strings, `float64` to a number, `int` to an integer. -/
inductive JsonValue
  | str (s : String)
  | num (q : Rat)
  | int (n : Int)
  deriving DecidableEq, Repr

/-- The kind of a serialized JSON value, for stating schema facts. -/
def JsonValue.kind : JsonValue → String
  | .str _ => "string"
  | .num _ => "number"
  | .int _ => "integer"

/-- JSON marshalling of `OrderEvent`, following the struct tags in
`internal/messaging`: fields appear in struct order; `old_status` and
`new_status` carry `omitempty`, so they are emitted only when non-empty;
`occurred_at` is emitted as a timestamp string. -/
def OrderEvent.marshal (e : OrderEvent) : List (String × JsonValue) :=
  [("event_type", .str e.eventType),
   ("order_id", .str e.orderID),
   ("customer_id", .str e.customerID),
   ("status", .str e.status)]
  ++ (if e.oldStatus = "" then [] else [("old_status", .str e.oldStatus)])
  ++ (if e.newStatus = "" then [] else [("new_status", .str e.newStatus)])
  ++ [("total", .num e.total),
      ("version", .int e.version),
      ("occurred_at", .str (toString e.occurredAt))]

/-- The field names present in a serialized envelope. -/
def OrderEvent.wireFields (e : OrderEvent) : List String :=
  (e.marshal).map Prod.fst

/-- Effects a publisher call could perform; the no-op publisher performs
none, a broker-backed one would record sends here. -/
inductive Effect
  | kafkaSend (key : String) (payload : List (String × JsonValue))
  deriving DecidableEq, Repr

/-- Go `context.Context` as these functions can receive it: a nil
interface value or a context that may or may not be cancelled. -/
inductive GoContext
  | nil
  | ctx (cancelled : Bool)
  deriving DecidableEq, Repr

namespace noop

/-- `noop.Publisher.PublishOrderCreated`: `return nil`, ignoring the
context and the (possibly nil) order pointer, performing no effect. -/
def publishOrderCreated (_c : GoContext) (_o : Option Order) :
    Option String × List Effect :=
  (none, [])

/-- `noop.Publisher.PublishOrderUpdated`: `return nil`, ignoring its
arguments, performing no effect. -/
def publishOrderUpdated (_c : GoContext) (_o : Option Order) :
    Option String × List Effect :=
  (none, [])

/-- `noop.Publisher.PublishOrderStatusChanged`: `return nil`, ignoring
the context, the order pointer and both statuses, performing no effect. -/
def publishOrderStatusChanged (_c : GoContext) (_o : Option Order)
    (_old _new : OrderStatus) : Option String × List Effect :=
  (none, [])

end noop

/-- Modelled from the spec: envelope construction for a created event, as
the broker-backed Publisher builds it from the entity snapshot — event
type `order.created`, identity and status copied from the order, no
old/new status, `occurred_at` fixed at construction time. -/
def eventCreated (o : Order) (now : Nat) : OrderEvent :=
  { eventType := EventOrderCreated
    orderID := o.id
    customerID := o.customerId
    status := o.status.toString
    oldStatus := ""
    newStatus := ""
    total := o.total
    version := o.version
    occurredAt := now }

/-- Modelled from the spec: envelope construction for an updated event. -/
def eventUpdated (o : Order) (now : Nat) : OrderEvent :=
  { eventType := EventOrderUpdated
    orderID := o.id
    customerID := o.customerId
    status := o.status.toString
    oldStatus := ""
    newStatus := ""
    total := o.total
    version := o.version
    occurredAt := now }

/-- Modelled from the spec: envelope construction for a status-changed
event, carrying the old and the new status. -/
def eventStatusChanged (o : Order) (old new : OrderStatus) (now : Nat) :
    OrderEvent :=
  { eventType := EventOrderStatusChanged
    orderID := o.id
    customerID := o.customerId
    status := o.status.toString
    oldStatus := old.toString
    newStatus := new.toString
    total := o.total
    version := o.version
    occurredAt := now }

/-- Modelled from the spec: the envelopes the system actually emits are
exactly those built by the three constructors, and a status-changed
envelope is only built when the status really changed (spec §3:
`old_status != new_status` always). -/
inductive Constructed : OrderEvent → Prop
  | created (o : Order) (now : Nat) : Constructed (eventCreated o now)
  | updated (o : Order) (now : Nat) : Constructed (eventUpdated o now)
  | statusChanged (o : Order) (old new : OrderStatus) (now : Nat)
      (hne : old ≠ new) : Constructed (eventStatusChanged o old new now)

/-- A log line emitted by the service layer. -/
inductive LogEntry
  | warn (msg : String)
  deriving DecidableEq, Repr

/-- Modelled from the spec: a state-changing service operation seen
through the Failure Isolation Layer.  The durable write outcome comes
first; if it fails, the operation returns that error and never attempts
the publish.  If it succeeds, the publish is attempted; a publish error
is logged as a warning and discarded, and the operation returns the
committed order regardless. -/
def runStateChangingOp (writeResult : Except String Order)
    (publishErr : Option String) :
    Except String Order × List LogEntry × Bool :=
  match writeResult with
  | .error e => (.error e, [], false)
  | .ok o =>
    match publishErr with
    | none => (.ok o, [], true)
    | some pe => (.ok o, [.warn pe], true)

/-- An observable action in the trace of a state-changing operation. -/
inductive Action
  | dbWrite (committed : Bool)
  | publish (e : OrderEvent)
  deriving DecidableEq, Repr

/-- Modelled from the spec: the action trace of one state-changing
operation (ADR-0006, CONSTRAINT "Publish After Successful DB Write") —
the durable write happens first, and the publish of the operation's
envelope is attempted only when that write committed. -/
def serviceOpTrace (writeOk : Bool) (e : OrderEvent) : List Action :=
  if writeOk then [.dbWrite true, .publish e] else [.dbWrite false]

/-- Modelled from the spec: a subscription's status filter — a set of
statuses of interest, or "all". -/
inductive StatusFilter
  | all
  | only (statuses : List String)
  deriving DecidableEq, Repr

/-- Modelled from the spec: the effective status of an envelope — the
`status` field, or `new_status` for status_changed events. -/
def effectiveStatus (e : OrderEvent) : String :=
  if e.eventType = EventOrderStatusChanged then e.newStatus else e.status

/-- Modelled from the spec: gateway-side filter evaluation — an envelope
matches a subscription when its effective status is a member of the
subscription's filter set; the "all" filter matches everything. -/
def matchesFilter : StatusFilter → OrderEvent → Bool
  | .all, _ => true
  | .only ss, e => ss.contains (effectiveStatus e)

/-- Modelled from the spec: resolving the filter of a stream-open
request — a request without a filter behaves as filter "all". -/
def openStreamFilter (requested : Option (List String)) : StatusFilter :=
  match requested with
  | none => .all
  | some ss => .only ss

/-- Modelled from the spec: one live subscription of the Streaming
Gateway — its filter, the bound of its delivery buffer, the buffered
undelivered envelopes (oldest first) and its gap counter. -/
structure Subscription where
  filter : StatusFilter
  cap : Nat
  buffer : List OrderEvent
  gap : Nat
  deriving DecidableEq, Repr

/-- Modelled from the spec: the gateway offering one consumed envelope to
one subscription.  A non-matching envelope leaves the subscription
untouched; a matching one is appended to the buffer, and when the buffer
is already full the oldest undelivered envelope is dropped and the gap
counter incremented instead of blocking. -/
def Subscription.offer (s : Subscription) (e : OrderEvent) : Subscription :=
  if matchesFilter s.filter e then
    if s.buffer.length < s.cap then
      { s with buffer := s.buffer ++ [e] }
    else
      { s with buffer := s.buffer.tail ++ [e], gap := s.gap + 1 }
  else s

/-- Modelled from the spec: the shared consumption path fanning one
envelope out to every live subscription independently. -/
def fanout (subs : List Subscription) (e : OrderEvent) : List Subscription :=
  subs.map (fun s => s.offer e)

/-- Modelled from the spec: the sequence of envelopes a subscription is
delivered when it consumes a log without ever dropping (non-lossy): the
log in order, restricted to the envelopes matching its filter. -/
def deliveredSeq (f : StatusFilter) (log : List OrderEvent) :
    List OrderEvent :=
  log.filter (fun e => matchesFilter f e)

/-- The subsequence of a stream concerning one entity id. -/
def perKeyView (log : List OrderEvent) (k : String) : List OrderEvent :=
  log.filter (fun e => e.orderID = k)

/-- Modelled from the spec: the durable log's per-key ordering guarantee
(Kafka partitioning keyed by `entity_id`) — the log may interleave
entities arbitrarily, but for each entity id its subsequence equals the
commit-order sequence of that entity. -/
def PerKeyOrdered (log commits : List OrderEvent) : Prop :=
  ∀ k : String, perKeyView log k = perKeyView commits k

/-- Modelled from the spec (§4.4): the state of a derived-state consumer
that tracks, per entity, the highest version observed; `applied` is the
envelope whose state the consumer currently reflects. -/
structure ConsumerState where
  watermark : Option Int
  applied : Option OrderEvent
  deriving DecidableEq, Repr

/-- Modelled from the spec (§4.4): a consumer applies an incoming
envelope only when its version is above the watermark, ignoring any
envelope at or below it. -/
def applyEnvelope (c : ConsumerState) (e : OrderEvent) : ConsumerState :=
  match c.watermark with
  | none => { watermark := some e.version, applied := some e }
  | some w =>
    if e.version ≤ w then c
    else { watermark := some e.version, applied := some e }

/-- Modelled from the spec (§4.4): run the watermark consumer over a
delivery sequence, starting with nothing observed. -/
def consume (es : List OrderEvent) : ConsumerState :=
  es.foldl applyEnvelope { watermark := none, applied := none }

/-- A concrete order used by the witness theorems. -/
def sampleOrder : Order :=
  { id := "o-1", customerId := "c-1", status := .pending,
    total := 10, version := 1 }

/-- Every status renders to a non-empty wire string. -/
theorem OrderStatus.toString_ne_empty (s : OrderStatus) : s.toString ≠ "" := by
  cases s <;> decide

/-- Distinct statuses render to distinct wire strings. -/
theorem OrderStatus.toString_injective (a b : OrderStatus)
    (h : a.toString = b.toString) : a = b := by
  cases a <;> cases b <;> first | rfl | exact absurd h (by decide)

/-- C1: for every state-changing operation, a publish error is logged as
a warning and discarded inside the Failure Isolation Layer: the result
returned to the caller is the same as if the publish had succeeded, so
no publish-path error crosses the layer boundary. -/
theorem publish_errors_never_reach_caller :
    ∀ (w : Except String Order) (pe : Option String),
      (runStateChangingOp w pe).1 = (runStateChangingOp w none).1 ∧
      (∀ (o : Order) (msg : String), w = .ok o → pe = some msg →
        (runStateChangingOp w pe).2.1 = [LogEntry.warn msg]) := by
  intro w pe
  constructor
  · cases w with
    | error e => rfl
    | ok o => cases pe <;> rfl
  · intro o msg hw hp
    subst hw
    subst hp
    rfl

/-- Closed instance of C1 at a committed write and a failing publish. -/
theorem publish_errors_never_reach_caller_witness :
    (runStateChangingOp (Except.ok sampleOrder) (some "kafka down")).1
        = (runStateChangingOp (Except.ok sampleOrder) none).1 ∧
    (runStateChangingOp (Except.ok sampleOrder) (some "kafka down")).2.1
        = [LogEntry.warn "kafka down"] :=
  ⟨(publish_errors_never_reach_caller (Except.ok sampleOrder)
      (some "kafka down")).1,
   (publish_errors_never_reach_caller (Except.ok sampleOrder)
      (some "kafka down")).2 sampleOrder "kafka down" rfl rfl⟩

/-- C2: each of the three publish operations of the fallback (noop)
Publisher returns a nil error for every context and entity and performs
no effect at all. -/
theorem noop_publisher_succeeds_without_effects :
    ∀ (c : GoContext) (o : Option Order) (old new : OrderStatus),
      noop.publishOrderCreated c o = (none, []) ∧
      noop.publishOrderUpdated c o = (none, []) ∧
      noop.publishOrderStatusChanged c o old new = (none, []) := by
  intro c o old new
  exact ⟨rfl, rfl, rfl⟩

/-- C7: in the trace of a state-changing operation, a publish action
occurs only after a committed durable write, and an operation whose
write aborts publishes nothing. -/
theorem publish_only_after_committed_write :
    (∀ (ok : Bool) (ev e : OrderEvent),
       Action.publish e ∈ serviceOpTrace ok ev →
       ok = true ∧ ∃ i j : Nat, i < j ∧
         (serviceOpTrace ok ev).get? i = some (Action.dbWrite true) ∧
         (serviceOpTrace ok ev).get? j = some (Action.publish e)) ∧
    (∀ ev e : OrderEvent, Action.publish e ∉ serviceOpTrace false ev) := by
  constructor
  · intro ok ev e hmem
    cases ok with
    | false =>
      simp [serviceOpTrace] at hmem
    | true =>
      simp [serviceOpTrace] at hmem
      subst hmem
      exact ⟨rfl, 0, 1, by omega, rfl, rfl⟩
  · intro ev e hmem
    simp [serviceOpTrace] at hmem

/-- Closed instance of C7 at a successful create operation. -/
theorem publish_only_after_committed_write_witness :
    true = true ∧ ∃ i j : Nat, i < j ∧
      (serviceOpTrace true (eventCreated sampleOrder 0)).get? i
          = some (Action.dbWrite true) ∧
      (serviceOpTrace true (eventCreated sampleOrder 0)).get? j
          = some (Action.publish (eventCreated sampleOrder 0)) :=
  publish_only_after_committed_write.1 true (eventCreated sampleOrder 0)
    (eventCreated sampleOrder 0) (by simp [serviceOpTrace])

/-- C10: the noop Publisher's operations are total constant functions —
they ignore the context (even nil or cancelled) and the order pointer
(even nil), always returning a nil error and no effect. -/
theorem noop_publisher_ignores_arguments :
    ∀ (c c' : GoContext) (o o' : Option Order)
      (old old' new new' : OrderStatus),
      noop.publishOrderCreated c o = noop.publishOrderCreated c' o' ∧
      noop.publishOrderUpdated c o = noop.publishOrderUpdated c' o' ∧
      noop.publishOrderStatusChanged c o old new
          = noop.publishOrderStatusChanged c' o' old' new' ∧
      (noop.publishOrderCreated GoContext.nil none).1 = none ∧
      (noop.publishOrderUpdated (GoContext.ctx true) none).1 = none ∧
      (noop.publishOrderStatusChanged GoContext.nil none old new).1
          = none := by
  intro c c' o o' old old' new new'
  exact ⟨rfl, rfl, rfl, rfl, rfl, rfl⟩

/-- C4: every constructed envelope serializes to exactly the schema
fields — event_type, order_id (the spec's entity_id), customer_id (the
spec's owner_id) and status as strings, optionally old_status and
new_status as strings, total as a number, version as an integer and
occurred_at as a timestamp string — and its event_type is one of the
three event-type constants (the code spellings of created, updated,
status_changed). -/
theorem wire_envelope_schema :
    ∀ e : OrderEvent, Constructed e →
      ((e.marshal).map (fun kv => (kv.1, kv.2.kind)) =
          [("event_type", "string"), ("order_id", "string"),
           ("customer_id", "string"), ("status", "string"),
           ("total", "number"), ("version", "integer"),
           ("occurred_at", "string")] ∨
       (e.marshal).map (fun kv => (kv.1, kv.2.kind)) =
          [("event_type", "string"), ("order_id", "string"),
           ("customer_id", "string"), ("status", "string"),
           ("old_status", "string"), ("new_status", "string"),
           ("total", "number"), ("version", "integer"),
           ("occurred_at", "string")]) ∧
      e.eventType ∈
        [EventOrderCreated, EventOrderUpdated, EventOrderStatusChanged] := by
  intro e h
  cases h with
  | created o now =>
    refine ⟨Or.inl ?_, by simp [eventCreated]⟩
    simp [OrderEvent.marshal, eventCreated, JsonValue.kind]
  | updated o now =>
    refine ⟨Or.inl ?_, by simp [eventUpdated]⟩
    simp [OrderEvent.marshal, eventUpdated, JsonValue.kind]
  | statusChanged o old new now hne =>
    refine ⟨Or.inr ?_, by simp [eventStatusChanged]⟩
    simp [OrderEvent.marshal, eventStatusChanged, JsonValue.kind,
      OrderStatus.toString_ne_empty]

/-- Closed instance of C4 at a concrete status-changed envelope. -/
theorem wire_envelope_schema_witness :
    (eventStatusChanged sampleOrder OrderStatus.pending
        OrderStatus.shipped 5).eventType ∈
      [EventOrderCreated, EventOrderUpdated, EventOrderStatusChanged] :=
  (wire_envelope_schema (eventStatusChanged sampleOrder .pending .shipped 5)
    (Constructed.statusChanged sampleOrder .pending .shipped 5
      (by decide))).2

/-- C9: a constructed envelope carries the old_status and new_status
wire fields exactly when its event_type is status_changed, and when it
does, old_status differs from new_status. -/
theorem status_change_fields_invariant :
    ∀ e : OrderEvent, Constructed e →
      (("old_status" ∈ e.wireFields ↔
          e.eventType = EventOrderStatusChanged) ∧
       ("new_status" ∈ e.wireFields ↔
          e.eventType = EventOrderStatusChanged)) ∧
      (e.eventType = EventOrderStatusChanged →
        e.oldStatus ≠ e.newStatus) := by
  intro e h
  cases h with
  | created o now =>
    refine ⟨⟨?_, ?_⟩, ?_⟩ <;>
      simp [OrderEvent.wireFields, OrderEvent.marshal, eventCreated,
        EventOrderCreated, EventOrderStatusChanged]
  | updated o now =>
    refine ⟨⟨?_, ?_⟩, ?_⟩ <;>
      simp [OrderEvent.wireFields, OrderEvent.marshal, eventUpdated,
        EventOrderUpdated, EventOrderStatusChanged]
  | statusChanged o old new now hne =>
    refine ⟨⟨?_, ?_⟩, fun _ hcontra => ?_⟩
    · simp [OrderEvent.wireFields, OrderEvent.marshal, eventStatusChanged,
        OrderStatus.toString_ne_empty]
    · simp [OrderEvent.wireFields, OrderEvent.marshal, eventStatusChanged,
        OrderStatus.toString_ne_empty]
    · exact hne (OrderStatus.toString_injective old new hcontra)

/-- Closed instance of C9 at a concrete status-changed envelope. -/
theorem status_change_fields_invariant_witness :
    (eventStatusChanged sampleOrder OrderStatus.confirmed
        OrderStatus.shipped 7).oldStatus ≠
      (eventStatusChanged sampleOrder OrderStatus.confirmed
        OrderStatus.shipped 7).newStatus :=
  (status_change_fields_invariant
    (eventStatusChanged sampleOrder .confirmed .shipped 7)
    (Constructed.statusChanged sampleOrder .confirmed .shipped 7
      (by decide))).2 rfl

/-- C5: an envelope is delivered to a subscription exactly when its
effective status (status, or new_status for status_changed events) is a
member of the subscription's filter set; a subscription filtered to
only "shipped" never receives an envelope with another effective
status, and a stream opened without a filter behaves as filter "all",
which delivers everything. -/
theorem filter_membership_decides_delivery :
    (∀ (ss : List String) (e : OrderEvent),
       matchesFilter (.only ss) e = true ↔ effectiveStatus e ∈ ss) ∧
    (∀ e : OrderEvent, matchesFilter .all e = true) ∧
    (∀ e : OrderEvent,
       matchesFilter (.only ["shipped"]) e = true →
       effectiveStatus e = "shipped") ∧
    openStreamFilter none = .all := by
  refine ⟨?_, fun e => rfl, ?_, rfl⟩
  · intro ss e
    simp [matchesFilter]
  · intro e h
    simp [matchesFilter] at h
    exact h

/-- Closed instance of C5 at a shipped status-change envelope and the
singleton shipped filter. -/
theorem filter_membership_decides_delivery_witness :
    effectiveStatus
        (eventStatusChanged sampleOrder OrderStatus.confirmed
          OrderStatus.shipped 0) = "shipped" :=
  filter_membership_decides_delivery.2.2.1
    (eventStatusChanged sampleOrder .confirmed .shipped 0) (by decide)

/-- C6: when a subscription's buffer is full and a matching envelope
arrives, the gateway drops the oldest undelivered envelope of that
subscription and increments its gap counter, leaving its filter and
bound unchanged; every subscription's next state depends only on its
own previous state, so no other subscription is affected, and the
shared fanout is total over all subscriptions. -/
theorem full_buffer_drops_oldest :
    (∀ (s : Subscription) (e : OrderEvent),
       matchesFilter s.filter e = true →
       s.buffer.length = s.cap →
       (s.offer e).buffer = s.buffer.tail ++ [e] ∧
       (s.offer e).gap = s.gap + 1 ∧
       (s.offer e).filter = s.filter ∧
       (s.offer e).cap = s.cap) ∧
    (∀ (subs : List Subscription) (e : OrderEvent) (i : Nat),
       (fanout subs e).get? i = (subs.get? i).map (fun s => s.offer e)) ∧
    (∀ (subs : List Subscription) (e : OrderEvent),
       (fanout subs e).length = subs.length) := by
  refine ⟨?_, ?_, ?_⟩
  · intro s e hmatch hfull
    have hnotlt : ¬ s.buffer.length < s.cap := by omega
    simp [Subscription.offer, hmatch, hnotlt]
  · intro subs e i
    simp [fanout]
  · intro subs e
    simp [fanout]

/-- Closed instance of C6: a full one-slot buffer drops its oldest
envelope and counts a gap. -/
theorem full_buffer_drops_oldest_witness :
    (Subscription.offer
        { filter := .all, cap := 1,
          buffer := [eventCreated sampleOrder 0], gap := 0 }
        (eventUpdated sampleOrder 1)).buffer
      = [eventCreated sampleOrder 0].tail ++ [eventUpdated sampleOrder 1] ∧
    (Subscription.offer
        { filter := .all, cap := 1,
          buffer := [eventCreated sampleOrder 0], gap := 0 }
        (eventUpdated sampleOrder 1)).gap = 0 + 1 :=
  have h := full_buffer_drops_oldest.1
    { filter := .all, cap := 1,
      buffer := [eventCreated sampleOrder 0], gap := 0 }
    (eventUpdated sampleOrder 1) rfl rfl
  ⟨h.1, h.2.1⟩

/-- A concrete two-envelope log used by the ordering witness. -/
def sampleLog : List OrderEvent :=
  [eventCreated sampleOrder 0,
   eventStatusChanged { sampleOrder with version := 2 }
     OrderStatus.pending OrderStatus.shipped 1]

/-- C3: whenever the log preserves per-key commit order, the envelopes a
non-lossy subscription observes for one entity id are a subsequence of
that entity's commit sequence in the same relative order, and with the
"all" filter they are exactly that commit sequence. -/
theorem per_entity_commit_order_preserved :
    ∀ (log commits : List OrderEvent) (f : StatusFilter) (k : String),
      PerKeyOrdered log commits →
      List.Sublist (perKeyView (deliveredSeq f log) k)
        (perKeyView commits k) ∧
      perKeyView (deliveredSeq .all log) k = perKeyView commits k := by
  intro log commits f k h
  have hcomm : perKeyView (deliveredSeq f log) k
      = List.filter (fun e => matchesFilter f e) (perKeyView log k) := by
    simp only [perKeyView, deliveredSeq, List.filter_filter]
    congr 1
    funext e
    exact Bool.and_comm _ _
  refine ⟨?_, ?_⟩
  · rw [hcomm, h k]
    exact List.filter_sublist _
  · have hall : deliveredSeq .all log = log := by
      simp [deliveredSeq, matchesFilter]
    rw [hall]
    exact h k

/-- Closed instance of C3 on a concrete log that trivially preserves
per-key order. -/
theorem per_entity_commit_order_preserved_witness :
    List.Sublist
      (perKeyView (deliveredSeq (.only ["shipped"]) sampleLog) "o-1")
      (perKeyView sampleLog "o-1") ∧
    perKeyView (deliveredSeq .all sampleLog) "o-1"
      = perKeyView sampleLog "o-1" :=
  per_entity_commit_order_preserved sampleLog sampleLog
    (.only ["shipped"]) "o-1" (fun _ => rfl)

/-- Running the watermark consumer from a state that reflects envelope
`a` yields a state reflecting some envelope of maximal version among
`a` and the input. -/
theorem foldl_applyEnvelope_spec :
    ∀ (es : List OrderEvent) (a : OrderEvent),
      ∃ b : OrderEvent,
        es.foldl applyEnvelope
            { watermark := some a.version, applied := some a }
          = { watermark := some b.version, applied := some b } ∧
        (b = a ∨ b ∈ es) ∧ a.version ≤ b.version ∧
        (∀ x ∈ es, x.version ≤ b.version) := by
  intro es
  induction es with
  | nil =>
    intro a
    exact ⟨a, rfl, Or.inl rfl, le_refl _, by simp⟩
  | cons x rest ih =>
    intro a
    by_cases hx : x.version ≤ a.version
    · have hstep : applyEnvelope
          { watermark := some a.version, applied := some a } x
          = { watermark := some a.version, applied := some a } := by
        simp [applyEnvelope, hx]
      obtain ⟨b, hb, hmem, hle, hall⟩ := ih a
      refine ⟨b, ?_, ?_, hle, ?_⟩
      · simpa [List.foldl_cons, hstep] using hb
      · rcases hmem with h | h
        · exact Or.inl h
        · exact Or.inr (List.mem_cons_of_mem _ h)
      · intro y hy
        rcases List.mem_cons.mp hy with rfl | hy2
        · exact le_trans hx hle
        · exact hall y hy2
    · push_neg at hx
      have hstep : applyEnvelope
          { watermark := some a.version, applied := some a } x
          = { watermark := some x.version, applied := some x } := by
        simp only [applyEnvelope]
        rw [if_neg (not_le.mpr hx)]
      obtain ⟨b, hb, hmem, hle, hall⟩ := ih x
      refine ⟨b, ?_, ?_, le_trans (le_of_lt hx) hle, ?_⟩
      · simpa [List.foldl_cons, hstep] using hb
      · rcases hmem with h | h
        · exact Or.inr (h ▸ List.mem_cons_self x rest)
        · exact Or.inr (List.mem_cons_of_mem _ h)
      · intro y hy
        rcases List.mem_cons.mp hy with rfl | hy2
        · exact hle
        · exact hall y hy2

/-- C8: over any delivery sequence with duplicates and out-of-order
redeliveries, a consumer that ignores envelopes at or below its highest
observed version per entity ends reflecting the envelope of the highest
version present. -/
theorem watermark_consumer_keeps_highest :
    ∀ (es : List OrderEvent) (e : OrderEvent),
      e ∈ es →
      (∀ x ∈ es, x.version ≤ e.version) →
      (∀ x ∈ es, x.version = e.version → x = e) →
      (consume es).applied = some e := by
  intro es e hmem hmax huniq
  cases es with
  | nil => simp at hmem
  | cons x rest =>
    obtain ⟨b, hb, hbmem, hxb, hall⟩ := foldl_applyEnvelope_spec rest x
    have hconsume : consume (x :: rest)
        = { watermark := some b.version, applied := some b } := by
      simp only [consume, List.foldl_cons]
      exact hb
    have hbmem2 : b ∈ x :: rest := by
      rcases hbmem with rfl | h
      · exact List.mem_cons_self _ _
      · exact List.mem_cons_of_mem _ h
    have h1 : b.version ≤ e.version := hmax b hbmem2
    have h2 : e.version ≤ b.version := by
      rcases List.mem_cons.mp hmem with rfl | he
      · exact hxb
      · exact hall e he
    have hbe : b = e := huniq b hbmem2 (le_antisymm h1 h2)
    rw [hconsume, hbe]

/-- The version-3 redelivered envelope of the C8 scenario. -/
def envV3 : OrderEvent :=
  eventStatusChanged { sampleOrder with version := 3 }
    OrderStatus.confirmed OrderStatus.shipped 3

/-- The version-2 redelivered envelope of the C8 scenario. -/
def envV2 : OrderEvent :=
  eventStatusChanged { sampleOrder with version := 2 }
    OrderStatus.pending OrderStatus.confirmed 2

/-- Closed instance of C8: after redelivery of versions 3 then 2, the
consumer ends in the state of the version-3 envelope. -/
theorem watermark_consumer_keeps_highest_witness :
    (consume [envV3, envV2]).applied = some envV3 :=
  watermark_consumer_keeps_highest [envV3, envV2] envV3
    (by decide) (by decide) (by decide)

end OrderSvc
